import Mathlib

set_option linter.unusedVariables false

/-!
Verification of the SFTP client command layer (SFTPClient/Client.py).

The commands of the `SFTP` class are embedded shallowly: each command is a
Lean function from an environment (an oracle answering the queries the code
makes of the remote facade, the local filesystem and the Python library
helpers) and an argument list to a result (`Except Err Unit`) paired with
the ordered trace of effects (`List Event`) the command performs.
-/

namespace SFTPClient

/-- Python exception values raised by the command layer. -/
inductive Err where
  | typeError (msg : String)
  | ioError (msg : String)
  | fileNotFoundError (msg : String)
  | stopIter
  deriving DecidableEq, Repr

/-- A remote directory subtree, as enumerated by the facade's tree walk:
children are listed in the order `listdir` yields them. -/
inductive FSTree where
  | file (name : String)
  | dir (name : String) (children : List FSTree)
  deriving Repr

/-- One observable effect of a command: a write to the local history file,
a call into the remote facade (`conn*`), or a local filesystem mutation
(`osMkdir` for `os.mkdir`, `rmtree` for `shutil.rmtree`). -/
inductive Event where
  | histWrite (line : String)
  | connExists (p : String)
  | connIsdir (p : String)
  | connIsfile (p : String)
  | connListdirCwd
  | connListdir (p : String)
  | connChmod (p : String) (mode : Int)
  | connRemove (p : String)
  | connRmdir (p : String)
  | connMkdir (p : String) (mode : Option Nat)
  | connMakedirs (p : String) (mode : Nat)
  | connGet (remotepath localpath : String)
  | connPut (localpath remotepath : String) (preserveMtime : Bool)
  | connPutCwd (localpath : String) (preserveMtime : Bool)
  | connGetR (remotedir localdir : String) (preserveMtime : Bool)
  | connPutR (localdir remotedir : String) (preserveMtime : Bool)
  | osMkdir (p : String)
  | rmtree (p : String)
  deriving DecidableEq, Repr

/-- Oracle environment: answers of the remote facade, of the local
filesystem, of `os.path.expanduser` and of `int()`, plus injectable
failures for `os.mkdir`, `Connection.get_r` and `Connection.put_r`
(`none` means the call succeeds). -/
structure Env where
  remoteExists : String → Bool
  remoteIsFile : String → Bool
  remoteIsDir : String → Bool
  treeAt : String → List FSTree
  tmpdir : String
  localIsFile : String → Bool
  localIsDir : String → Bool
  expanduser : String → String
  pyInt : String → Except Err Int
  localMkdirErr : String → Option Err
  getRErr : String → String → Option Err
  putRErr : String → String → Option Err

/-- `os.path.basename` for slash-separated paths: everything after the
last `/` (empty for a path ending in `/`). -/
def basename (p : String) : String :=
  String.mk ((p.toList.reverse.takeWhile (fun c => c ≠ ('/'))).reverse)

/-- Separator test of `ntpath` (both `/` and `\`). -/
def isNtSep (c : Char) : Bool :=
  c = ('/') || c = ('\\')

/-- `ntpath.split` for drive-less paths: split after the last separator,
stripping trailing separators from the head unless that empties it. -/
def ntpathSplit (p : String) : String × String :=
  let cs := p.toList
  let tl := (cs.reverse.takeWhile (fun c => !isNtSep c)).reverse
  let hd := cs.take (cs.length - tl.length)
  let hdStripped := (hd.reverse.dropWhile isNtSep).reverse
  (String.mk (if hdStripped.isEmpty then hd else hdStripped), String.mk tl)

/-- `ntpath.basename`. -/
def ntpathBasename (p : String) : String :=
  (ntpathSplit p).2

def DOWNLOADS_DIRECTORY : String := "downloads"

/-- The line the `log_history` decorator appends for one invocation:
the command name, then the space-joined arguments when there are any. -/
def logLine (name : String) (args : List String) : String :=
  if args.length > 0 then name ++ (" ") ++ String.intercalate (" ") args
  else name

/-- `SFTP.ls`: list the remote cwd with zero arguments, the given path with
one, otherwise raise a `TypeError` naming the expected arity. -/
def ls (env : Env) (args : List String) : Except Err Unit × List Event :=
  match args with
  | [] => (.ok (), [.connListdirCwd])
  | [p] => (.ok (), [.connListdir p])
  | _ =>
    (.error (.typeError (("ls() takes exactly zero or one arguments (")
      ++ toString args.length ++ (" given)"))), [])

/-- `SFTP.chmod`: with two arguments, convert the second with `int()` and
call the facade's `chmod`; otherwise raise a `TypeError`. -/
def chmod (env : Env) (args : List String) : Except Err Unit × List Event :=
  match args with
  | [p, m] =>
    match env.pyInt m with
    | .ok i => (.ok (), [.connChmod p i])
    | .error e => (.error e, [])
  | _ =>
    (.error (.typeError (("chmod() takes exactly two arguments (")
      ++ toString args.length ++ (" given)"))), [])

/-- The facade's `walktree` as called by `SFTP.rmdir`: for each entry of a
listing in order, a file (or unknown entry) is removed at once via the
file callback, a directory is recorded via the directory callback and then
descended into.  Returns the file-removal events in the order they happen
and the recorded directory paths in the order they are recorded. -/
def walkEvents : String → List FSTree → List Event × List String
  | _, [] => ([], [])
  | base, .file n :: rest =>
    let r := walkEvents base rest
    (.connRemove (base ++ ("/") ++ n) :: r.1, r.2)
  | base, .dir n cs :: rest =>
    let p := base ++ ("/") ++ n
    let rsub := walkEvents p cs
    let rrest := walkEvents base rest
    (rsub.1 ++ rrest.1, p :: (rsub.2 ++ rrest.2))

/-- The effect trace of `SFTP.rmdir`'s directory branch: the walk removes
every file, then the recorded directories are removed in reverse recorded
order, then the root itself. -/
def rmdirRun (root : String) (cs : List FSTree) : List Event :=
  let w := walkEvents root cs
  w.1 ++ (w.2.reverse.map Event.connRmdir) ++ [Event.connRmdir root]

/-- `SFTP.rmdir`: exactly one argument; if it is a remote directory, walk
the subtree removing files, then remove recorded directories in reverse
order and the root last; otherwise raise a `TypeError`. -/
def rmdir (env : Env) (args : List String) : Except Err Unit × List Event :=
  match args with
  | [p] =>
    if env.remoteIsDir p then
      (.ok (), .connIsdir p :: rmdirRun p (env.treeAt p))
    else
      (.error (.typeError (("Error: '") ++ p ++ ("' is not a directory"))),
        [.connIsdir p])
  | _ =>
    (.error (.typeError (("rmdir() takes exactly one argument (")
      ++ toString args.length ++ (" given)"))), [])

/-- `SFTP.rm`: exactly one argument naming a remote file; the same
`TypeError` is raised both for a wrong argument count and for a path that
is not a file. -/
def rm (env : Env) (args : List String) : Except Err Unit × List Event :=
  match args with
  | [p] =>
    if env.remoteIsFile p then (.ok (), [.connIsfile p, .connRemove p])
    else (.error (.typeError ("Usage: rm [filename | path/to/filename]")),
      [.connIsfile p])
  | _ =>
    (.error (.typeError ("Usage: rm [filename | path/to/filename]")), [])

/-- `SFTP.mkdir`: exactly one argument; `makedirs` with mode `775` when the
path contains a slash (`find('/') != -1`), else the facade's `mkdir` with
mode `775`. -/
def mkdir (env : Env) (args : List String) : Except Err Unit × List Event :=
  match args with
  | [p] =>
    if p.toList.contains ('/') then (.ok (), [.connMakedirs p 775])
    else (.ok (), [.connMkdir p (some 775)])
  | _ =>
    (.error (.typeError ("Usage: mkdir [dirname | path/to/dirname]")), [])

/-- `SFTP.get`: one or two arguments; the remote path must be a file, else
an `IOError` (distinct from the arity `TypeError`) is raised.  With one
argument the file lands in the downloads directory under its `ntpath`
basename, with two it lands at the `expanduser`-expanded second argument. -/
def get (env : Env) (args : List String) : Except Err Unit × List Event :=
  match args with
  | [a0] =>
    if env.remoteIsFile a0 then
      let st := ntpathSplit a0
      let remoteFile := if st.2 ≠ ("") then st.2 else ntpathBasename st.1
      (.ok (), [.connIsfile a0,
        .connGet a0 (DOWNLOADS_DIRECTORY ++ ("/") ++ remoteFile)])
    else
      (.error (.ioError (("The remote path '") ++ a0 ++ ("' is not a file"))),
        [.connIsfile a0])
  | [a0, a1] =>
    if env.remoteIsFile a0 then
      (.ok (), [.connIsfile a0, .connGet a0 (env.expanduser a1)])
    else
      (.error (.ioError (("The remote path '") ++ a0 ++ ("' is not a file"))),
        [.connIsfile a0])
  | _ =>
    (.error (.typeError (("get() takes 1 or 2 arguments (")
      ++ toString args.length ++ (" given)"))), [])

/-- The loop of `SFTP.put` over the argument iterator. `-t` consumes the
next raw argument as the upload target; a local file is uploaded (with a
swallowed `mkdir` of the target when one is set); a local directory raises
`IOError`; anything else raises `FileNotFoundError`; exhausting the
iterator right after `-t` raises `StopIteration`. -/
def putGo (env : Env) (target : Option String) :
    List String → Except Err Unit × List Event
  | [] => (.ok (), [])
  | a :: rest =>
    if env.expanduser a = ("-t") then
      match rest with
      | [] => (.error .stopIter, [])
      | t :: rest2 => putGo env (some t) rest2
    else if env.localIsFile (env.expanduser a) then
      match target with
      | some t =>
        let r := putGo env target rest
        (r.1, .connMkdir t none
          :: .connPut (env.expanduser a)
              (t ++ ("/") ++ basename (env.expanduser a)) true :: r.2)
      | none =>
        let r := putGo env target rest
        (r.1, .connPutCwd (env.expanduser a) true :: r.2)
    else if env.localIsDir (env.expanduser a) then
      (.error (.ioError ("Cannot put directories")), [])
    else
      (.error (.fileNotFoundError ("couldn't find the requested file")), [])
termination_by structural l => l

/-- `SFTP.put`: run the argument loop with no target set.  There is no
argument-count check: an empty argument list is a silent no-op. -/
def put (env : Env) (args : List String) : Except Err Unit × List Event :=
  putGo env none args

/-- The staging directory path `SFTP.cp` computes:
`tempfile.gettempdir() + '/' + basename(args[0])`. -/
def tmp_d (env : Env) (src : String) : String :=
  env.tmpdir ++ ("/") ++ basename src

/-- `SFTP.cp`: exactly two arguments; fail with `IOError` when the remote
destination exists; otherwise create the staging directory locally, `get_r`
the source into it, `put_r` the staged copy to the destination (both with
`preserve_mtime=True`), and remove the staging directory with
`shutil.rmtree` — which the code reaches only when both transfers
succeeded, there being no `try`/`finally` around them. -/
def cp (env : Env) (args : List String) : Except Err Unit × List Event :=
  match args with
  | [src, dst] =>
    if ¬ env.remoteExists dst then
      let tmpD := tmp_d env src
      match env.localMkdirErr tmpD with
      | some e => (.error e, [.connExists dst, .osMkdir tmpD])
      | none =>
        match env.getRErr src tmpD with
        | some e =>
          (.error e, [.connExists dst, .osMkdir tmpD, .connGetR src tmpD true])
        | none =>
          let staged := tmpD ++ ("/") ++ basename src
          match env.putRErr staged dst with
          | some e =>
            (.error e, [.connExists dst, .osMkdir tmpD,
              .connGetR src tmpD true, .connPutR staged dst true])
          | none =>
            (.ok (), [.connExists dst, .osMkdir tmpD,
              .connGetR src tmpD true, .connPutR staged dst true,
              .rmtree tmpD])
    else
      (.error (.ioError (("mkdir: ") ++ dst ++ (": File exists"))),
        [.connExists dst])
  | _ =>
    (.error (.typeError (("cp() takes exactly two arguments (")
      ++ toString args.length ++ (" given)"))), [])

/-- `SFTP.history`: zero arguments, returns the history file's content and
performs no remote call and no history write. -/
def history (env : Env) (args : List String) : Except Err Unit × List Event :=
  if args.length ≠ 0 then
    (.error (.typeError (("history takes exactly zero arguments (")
      ++ toString args.length ++ (" given)"))), [])
  else (.ok (), [])

/-- The dispatched command verbs. -/
inductive Verb where
  | ls | chmod | rmdir | rm | mkdir | get | put | cp | history
  deriving DecidableEq, Repr

/-- The name under which a verb is recorded (the Python function's
`__name__`, which the decorator writes). -/
def Verb.name : Verb → String
  | .ls => "ls"
  | .chmod => "chmod"
  | .rmdir => "rmdir"
  | .rm => "rm"
  | .mkdir => "mkdir"
  | .get => "get"
  | .put => "put"
  | .cp => "cp"
  | .history => "history"

/-- The `log_history` decorator: append one line (name, then space-joined
arguments when any) to the history file before running the body. -/
def withLog (name : String)
    (body : Env → List String → Except Err Unit × List Event)
    (env : Env) (args : List String) : Except Err Unit × List Event :=
  let r := body env args
  (r.1, .histWrite (logLine name args) :: r.2)

/-- The command dispatcher: every command carries the `log_history`
decorator except `cp` (which has none in the source) and `history`. -/
def execute (env : Env) : Verb → List String → Except Err Unit × List Event
  | .ls => withLog ("ls") ls env
  | .chmod => withLog ("chmod") chmod env
  | .rmdir => withLog ("rmdir") rmdir env
  | .rm => withLog ("rm") rm env
  | .mkdir => withLog ("mkdir") mkdir env
  | .get => withLog ("get") get env
  | .put => withLog ("put") put env
  | .cp => cp env
  | .history => history env

/-- Is the event a history-file write? -/
def Event.isHist : Event → Bool
  | .histWrite _ => true
  | _ => false

/-- Is the event a remote mutation (chmod, remove, rmdir, mkdir, makedirs,
or any upload)? -/
def Event.isRemoteWrite : Event → Bool
  | .connChmod _ _ => true
  | .connRemove _ => true
  | .connRmdir _ => true
  | .connMkdir _ _ => true
  | .connMakedirs _ _ => true
  | .connPut _ _ _ => true
  | .connPutCwd _ _ => true
  | .connPutR _ _ _ => true
  | _ => false

/-- Is the event a file transfer in either direction? -/
def Event.isTransfer : Event → Bool
  | .connGet _ _ => true
  | .connGetR _ _ _ => true
  | .connPut _ _ _ => true
  | .connPutCwd _ _ => true
  | .connPutR _ _ _ => true
  | _ => false

/-- Is the event a local `os.mkdir`? -/
def Event.isOsMkdirEvt : Event → Bool
  | .osMkdir _ => true
  | _ => false

/-- Is the event a recursive download? -/
def Event.isGetREvt : Event → Bool
  | .connGetR _ _ _ => true
  | _ => false

/-- Is the event a recursive upload? -/
def Event.isPutREvt : Event → Bool
  | .connPutR _ _ _ => true
  | _ => false

/-- A trace with no history-file write. -/
def histFree (l : List Event) : Prop := ∀ e ∈ l, e.isHist = false

/-- Concrete oracle: remote side holds exactly the directory `root`
containing `a.txt` and `sub/b.txt`; every injected failure off; `/tmp` as
the temporary root. -/
def env0 : Env where
  remoteExists := fun _ => false
  remoteIsFile := fun _ => false
  remoteIsDir := fun p => p == ("root")
  treeAt := fun p =>
    if p == ("root") then
      [FSTree.file ("a.txt"), FSTree.dir ("sub") [FSTree.file ("b.txt")]]
    else []
  tmpdir := "/tmp"
  localIsFile := fun _ => false
  localIsDir := fun _ => false
  expanduser := fun s => s
  pyInt := fun _ => .ok 0
  localMkdirErr := fun _ => none
  getRErr := fun _ _ => none
  putRErr := fun _ _ => none

/-- `env0` with the recursive download raising an `IOError`. -/
def envFail : Env :=
  { env0 with getRErr := fun _ _ => some (.ioError ("network failure")) }

/-- `env0` with every remote path reported as existing. -/
def envExists : Env :=
  { env0 with remoteExists := fun _ => true }

/-- `p` is the path of a directory node of the forest `cs` (walked from
`base`) whose children forest is `sub`. -/
inductive NodeIn : String → List FSTree → String → List FSTree → Prop where
  | here (base n : String) (cs rest : List FSTree) :
      NodeIn base (FSTree.dir n cs :: rest) (base ++ ("/") ++ n) cs
  | inSub (base n : String) (cs rest : List FSTree) (p : String)
      (sub : List FSTree) :
      NodeIn (base ++ ("/") ++ n) cs p sub →
      NodeIn base (FSTree.dir n cs :: rest) p sub
  | inRest (base : String) (t : FSTree) (rest : List FSTree) (p : String)
      (sub : List FSTree) :
      NodeIn base rest p sub → NodeIn base (t :: rest) p sub

theorem walk_files_removes (base : String) (cs : List FSTree) :
    ∀ e ∈ (walkEvents base cs).1, ∃ q, e = Event.connRemove q := by
  induction base, cs using walkEvents.induct with
  | case1 b => simp [walkEvents]
  | case2 base n rest ih =>
    simp_all [walkEvents]
  | case3 base n cs rest p ih1 ih2 =>
    simp_all [walkEvents]
    rintro e (he | he)
    · exact ih1 e he
    · exact ih2 e he

theorem walkEvents_fst_histFree (base : String) (cs : List FSTree) :
    histFree (walkEvents base cs).1 := by
  intro e he
  obtain ⟨q, rfl⟩ := walk_files_removes base cs e he
  rfl

theorem rmdirRun_histFree (root : String) (cs : List FSTree) :
    histFree (rmdirRun root cs) := by
  intro e he
  simp only [rmdirRun, List.mem_append, List.mem_singleton, List.mem_map]
    at he
  rcases he with (he | he) | he
  · exact walkEvents_fst_histFree root cs e he
  · obtain ⟨q, _, rfl⟩ := he
    rfl
  · subst he; rfl

theorem nodeIn_dirs_split {base p : String} {cs sub : List FSTree}
    (h : NodeIn base cs p sub) :
    ∃ l1 l2, (walkEvents base cs).2 = l1 ++ p :: ((walkEvents p sub).2 ++ l2) := by
  induction h with
  | here base n cs rest =>
    exact ⟨[], (walkEvents base rest).2, by simp [walkEvents]⟩
  | inSub base n cs rest p sub hsub ih =>
    obtain ⟨l1, l2, hl⟩ := ih
    refine ⟨(base ++ ("/") ++ n) :: l1, l2 ++ (walkEvents base rest).2, ?_⟩
    simp [walkEvents, hl]
  | inRest base t rest p sub hrest ih =>
    obtain ⟨l1, l2, hl⟩ := ih
    cases t with
    | file m => exact ⟨l1, l2, by simp [walkEvents, hl]⟩
    | dir m cs2 =>
      refine ⟨(base ++ ("/") ++ m)
        :: ((walkEvents (base ++ ("/") ++ m) cs2).2 ++ l1), l2, ?_⟩
      simp [walkEvents, hl]

theorem filter_isHist_eq_nil {l : List Event} (h : histFree l) :
    l.filter Event.isHist = [] := by
  induction l with
  | nil => rfl
  | cons a l ih =>
    have ha := h a (by simp)
    have hl : histFree l := fun e he => h e (by simp [he])
    simp [List.filter_cons, ha, ih hl]

theorem ls_histFree (env : Env) (args : List String) :
    histFree (ls env args).2 := by
  rcases args with _ | ⟨a, _ | ⟨b, r⟩⟩ <;>
    simp [ls, histFree, Event.isHist]

theorem chmod_histFree (env : Env) (args : List String) :
    histFree (chmod env args).2 := by
  rcases args with _ | ⟨a, _ | ⟨b, _ | ⟨c, r⟩⟩⟩ <;>
    simp [chmod, histFree, Event.isHist]
  cases env.pyInt b <;> simp [histFree, Event.isHist]

theorem rmdir_histFree (env : Env) (args : List String) :
    histFree (rmdir env args).2 := by
  rcases args with _ | ⟨a, _ | ⟨b, r⟩⟩ <;>
    simp [rmdir, histFree, Event.isHist]
  intro e he
  split at he
  · simp at he
    rcases he with rfl | he
    · rfl
    · exact rmdirRun_histFree a (env.treeAt a) e he
  · simp at he
    subst he; rfl

theorem rm_histFree (env : Env) (args : List String) :
    histFree (rm env args).2 := by
  rcases args with _ | ⟨a, _ | ⟨b, r⟩⟩ <;>
    simp [rm, histFree, Event.isHist]
  split <;> simp [histFree, Event.isHist]

theorem mkdir_histFree (env : Env) (args : List String) :
    histFree (mkdir env args).2 := by
  rcases args with _ | ⟨a, _ | ⟨b, r⟩⟩ <;>
    simp [mkdir, histFree, Event.isHist]
  split <;> simp [histFree, Event.isHist]

theorem get_histFree (env : Env) (args : List String) :
    histFree (get env args).2 := by
  intro e he
  rcases args with _ | ⟨a, _ | ⟨b, _ | ⟨c, r⟩⟩⟩ <;>
    simp only [get] at he
  · exact absurd he (by simp)
  · split at he <;> simp at he
    · rcases he with rfl | rfl <;> rfl
    · subst he; rfl
  · split at he <;> simp at he
    · rcases he with rfl | rfl <;> rfl
    · subst he; rfl
  · exact absurd he (by simp)

theorem putGo_histFree (env : Env) (target : Option String)
    (args : List String) : histFree (putGo env target args).2 := by
  induction target, args using putGo.induct env with
  | case1 target => intro e he; rw [putGo.eq_def] at he; simp at he
  | case2 target t h =>
    intro e he; rw [putGo.eq_def] at he; simp [h] at he
  | case3 target t h t1 rest2 ih =>
    intro e he
    rw [putGo.eq_def] at he
    simp only [h, if_pos, if_true, List.mem_cons] at he
    exact ih e he
  | case4 t rest2 h1 h2 t1 ih =>
    intro e he
    rw [putGo.eq_def] at he
    simp only [h1, h2, if_neg, if_pos, if_false, if_true,
      List.mem_cons] at he
    rcases he with rfl | rfl | he
    · rfl
    · rfl
    · exact ih e he
  | case5 t rest2 h1 h2 ih =>
    intro e he
    rw [putGo.eq_def] at he
    simp only [h1, h2, if_neg, if_pos, if_false, if_true,
      List.mem_cons] at he
    rcases he with rfl | he
    · rfl
    · exact ih e he
  | case6 target t rest2 h1 h2 h3 =>
    intro e he
    rw [putGo.eq_def] at he
    simp [h1, h2, h3] at he
  | case7 target t rest2 h1 h2 h3 =>
    intro e he
    rw [putGo.eq_def] at he
    simp [h1, h2, h3] at he

theorem put_histFree (env : Env) (args : List String) :
    histFree (put env args).2 :=
  putGo_histFree env none args

theorem cp_histFree (env : Env) (args : List String) :
    histFree (cp env args).2 := by
  intro e he
  rcases args with _ | ⟨a, _ | ⟨b, _ | ⟨c, r⟩⟩⟩ <;>
    simp only [cp] at he
  · exact absurd he (by simp)
  · exact absurd he (by simp)
  · split at he
    · split at he
      · simp at he
        rcases he with rfl | rfl <;> rfl
      · split at he
        · simp at he
          rcases he with rfl | rfl | rfl <;> rfl
        · split at he
          · simp at he
            rcases he with rfl | rfl | rfl | rfl <;> rfl
          · simp at he
            rcases he with rfl | rfl | rfl | rfl | rfl <;> rfl
    · simp at he
      subst he; rfl
  · exact absurd he (by simp)

theorem history_histFree (env : Env) (args : List String) :
    histFree (history env args).2 := by
  unfold history
  split <;> simp [histFree]

/-- C10: for every single argument, `mkdir` passes the mode as the decimal
integer `775` (which as an octal mask is `0o1407`, not `0o775`) to the
facade's `makedirs` when the path contains a `/` and to its `mkdir`
otherwise; the choice is decided solely by whether the path contains a
`/` character. -/
theorem C10_mkdir_mode (env : Env) (p : String) :
    (p.toList.contains ('/') = true →
      mkdir env [p] = (.ok (), [Event.connMakedirs p 775]))
  ∧ (p.toList.contains ('/') = false →
      mkdir env [p] = (.ok (), [Event.connMkdir p (some 775)]))
  ∧ (775 : Nat) = 0o1407 ∧ (775 : Nat) ≠ 0o775 := by
  refine ⟨fun h => ?_, fun h => ?_, by norm_num, by norm_num⟩
  · simp [mkdir]
    simpa using h
  · simp [mkdir]
    simpa using h

theorem C10_witness :
    mkdir env0 [("a/b")] = (.ok (), [Event.connMakedirs ("a/b") 775]) :=
  (C10_mkdir_mode env0 ("a/b")).1 (by decide)

/-- C5: `rmdir` with one argument whose path is not a remote directory
(including a nonexistent path, and hence a second call on an
already-removed path) raises the not-a-directory `TypeError` and performs
no deletion: its only effect is the `isdir` stat. -/
theorem C5_rmdir_not_directory (env : Env) (p : String)
    (h : env.remoteIsDir p = false) :
    rmdir env [p]
      = (.error (.typeError (("Error: '") ++ p ++ ("' is not a directory"))),
        [Event.connIsdir p])
  ∧ ∀ e ∈ (rmdir env [p]).2, e.isRemoteWrite = false := by
  constructor
  · simp [rmdir, h]
  · intro e he
    simp [rmdir, h] at he
    subst he
    rfl

theorem C5_witness :
    rmdir env0 [("gone")]
      = (.error (.typeError ("Error: 'gone' is not a directory")),
        [Event.connIsdir ("gone")]) :=
  (C5_rmdir_not_directory env0 ("gone") rfl).1

/-- C3: `cp` with two arguments whose destination already exists on the
remote side fails with the `File exists` `IOError` after the sole
`exists` stat: no remote write, no transfer, and no local staging
directory creation happens. -/
theorem C3_cp_destination_exists (env : Env) (src dst : String)
    (h : env.remoteExists dst = true) :
    cp env [src, dst]
      = (.error (.ioError (("mkdir: ") ++ dst ++ (": File exists"))),
        [Event.connExists dst])
  ∧ ∀ e ∈ (cp env [src, dst]).2,
      e.isRemoteWrite = false ∧ e.isTransfer = false
        ∧ e.isOsMkdirEvt = false := by
  constructor
  · simp [cp, h]
  · intro e he
    simp [cp, h] at he
    subst he
    exact ⟨rfl, rfl, rfl⟩

theorem C3_witness :
    cp envExists [("a"), ("b")]
      = (.error (.ioError ("mkdir: b: File exists")),
        [Event.connExists ("b")]) :=
  (C3_cp_destination_exists envExists ("a") ("b") rfl).1

/-- C8: when the destination does not exist, `cp`'s staging directory path
is exactly the temporary root joined with the basename of the source; it
is created (the `osMkdir` event) right after the existence stat and
before anything else — in particular before the download — it is never
created twice (no retry under another name), and a creation failure
propagates as the command's error with nothing further attempted. -/
theorem C8_staging_directory (env : Env) (src dst : String)
    (h : env.remoteExists dst = false) :
    tmp_d env src = env.tmpdir ++ ("/") ++ basename src
  ∧ ∃ post,
      (cp env [src, dst]).2
        = Event.connExists dst :: Event.osMkdir (tmp_d env src) :: post
      ∧ (∀ e ∈ post, e.isOsMkdirEvt = false)
      ∧ (∀ er, env.localMkdirErr (tmp_d env src) = some er →
          (cp env [src, dst]).1 = .error er ∧ post = []) := by
  refine ⟨rfl, ?_⟩
  rcases hm : env.localMkdirErr (tmp_d env src) with _ | er
  · rcases hg : env.getRErr src (tmp_d env src) with _ | eg
    · rcases hp : env.putRErr (tmp_d env src ++ ("/") ++ basename src) dst
        with _ | ep
      · refine ⟨[Event.connGetR src (tmp_d env src) true,
          Event.connPutR (tmp_d env src ++ ("/") ++ basename src) dst true,
          Event.rmtree (tmp_d env src)], ?_, ?_, ?_⟩
        · simp [cp, h, hm, hg, hp]
        · intro e he
          simp at he
          rcases he with rfl | rfl | rfl <;> rfl
        · intro er h'
          simp [hm] at h'
      · refine ⟨[Event.connGetR src (tmp_d env src) true,
          Event.connPutR (tmp_d env src ++ ("/") ++ basename src) dst true],
          ?_, ?_, ?_⟩
        · simp [cp, h, hm, hg, hp]
        · intro e he
          simp at he
          rcases he with rfl | rfl <;> rfl
        · intro er h'
          simp [hm] at h'
    · refine ⟨[Event.connGetR src (tmp_d env src) true], ?_, ?_, ?_⟩
      · simp [cp, h, hm, hg]
      · intro e he
        simp at he
        subst he; rfl
      · intro er h'
        simp [hm] at h'
  · refine ⟨[], ?_, by simp, ?_⟩
    · simp [cp, h, hm]
    · intro er2 h'
      cases h'
      exact ⟨by simp [cp, h, hm], rfl⟩

theorem C8_witness :
    tmp_d env0 ("src") = env0.tmpdir ++ ("/") ++ basename ("src")
  ∧ ∃ post,
      (cp env0 [("src"), ("dst")]).2
        = Event.connExists ("dst") :: Event.osMkdir (tmp_d env0 ("src")) :: post
      ∧ (∀ e ∈ post, e.isOsMkdirEvt = false)
      ∧ (∀ er, env0.localMkdirErr (tmp_d env0 ("src")) = some er →
          (cp env0 [("src"), ("dst")]).1 = .error er ∧ post = []) :=
  C8_staging_directory env0 ("src") ("dst") rfl

/-- C9: when `cp` reaches the transfer phase, the (single, blocking)
recursive download event precedes every recursive upload event in the
trace — nothing is transferred before the download returns — and both
transfers carry `preserve_mtime = True`. -/
theorem C9_download_before_upload (env : Env) (src dst : String)
    (h1 : env.remoteExists dst = false)
    (h2 : env.localMkdirErr (tmp_d env src) = none) :
    ∃ pre post,
      (cp env [src, dst]).2
        = pre ++ Event.connGetR src (tmp_d env src) true :: post
      ∧ (∀ e ∈ pre, e.isGetREvt = false ∧ e.isPutREvt = false)
      ∧ (∀ e ∈ post, e.isPutREvt = true →
          e = Event.connPutR (tmp_d env src ++ ("/") ++ basename src)
                dst true) := by
  rcases hg : env.getRErr src (tmp_d env src) with _ | eg
  · rcases hp : env.putRErr (tmp_d env src ++ ("/") ++ basename src) dst
      with _ | ep
    · refine ⟨[Event.connExists dst, Event.osMkdir (tmp_d env src)],
        [Event.connPutR (tmp_d env src ++ ("/") ++ basename src) dst true,
          Event.rmtree (tmp_d env src)], ?_, ?_, ?_⟩
      · simp [cp, h1, h2, hg, hp]
      · intro e he
        simp at he
        rcases he with rfl | rfl <;> exact ⟨rfl, rfl⟩
      · intro e he hput
        simp at he
        rcases he with rfl | rfl
        · rfl
        · simp [Event.isPutREvt] at hput
    · refine ⟨[Event.connExists dst, Event.osMkdir (tmp_d env src)],
        [Event.connPutR (tmp_d env src ++ ("/") ++ basename src) dst true],
        ?_, ?_, ?_⟩
      · simp [cp, h1, h2, hg, hp]
      · intro e he
        simp at he
        rcases he with rfl | rfl <;> exact ⟨rfl, rfl⟩
      · intro e he hput
        simp at he
        subst he; rfl
  · refine ⟨[Event.connExists dst, Event.osMkdir (tmp_d env src)], [],
      ?_, ?_, by simp⟩
    · simp [cp, h1, h2, hg]
    · intro e he
      simp at he
      rcases he with rfl | rfl <;> exact ⟨rfl, rfl⟩

theorem C9_witness :
    ∃ pre post,
      (cp env0 [("src"), ("dst")]).2
        = pre ++ Event.connGetR ("src") (tmp_d env0 ("src")) true :: post
      ∧ (∀ e ∈ pre, e.isGetREvt = false ∧ e.isPutREvt = false)
      ∧ (∀ e ∈ post, e.isPutREvt = true →
          e = Event.connPutR (tmp_d env0 ("src") ++ ("/") ++ basename ("src"))
                ("dst") true) :=
  C9_download_before_upload env0 ("src") ("dst") rfl rfl

/-- C1 (amended): `cp` removes the staging directory on the success path
only — the trace then ends with the `rmtree` — but when the recursive
download or the recursive upload raises, the original error propagates
unmodified while the staging directory is left in place: no `rmtree`
event occurs, there being no `try`/`finally` around the transfers. -/
theorem C1_cleanup_on_success_only (env : Env) (src dst : String)
    (h1 : env.remoteExists dst = false)
    (h2 : env.localMkdirErr (tmp_d env src) = none) :
    (env.getRErr src (tmp_d env src) = none →
     env.putRErr (tmp_d env src ++ ("/") ++ basename src) dst = none →
      (cp env [src, dst]).1 = .ok ()
        ∧ (cp env [src, dst]).2.getLast?
            = some (Event.rmtree (tmp_d env src)))
  ∧ (∀ e, env.getRErr src (tmp_d env src) = some e →
      (cp env [src, dst]).1 = .error e
        ∧ Event.rmtree (tmp_d env src) ∉ (cp env [src, dst]).2)
  ∧ (∀ e, env.getRErr src (tmp_d env src) = none →
      env.putRErr (tmp_d env src ++ ("/") ++ basename src) dst = some e →
      (cp env [src, dst]).1 = .error e
        ∧ Event.rmtree (tmp_d env src) ∉ (cp env [src, dst]).2) := by
  refine ⟨fun hg hp => ?_, fun e hg => ?_, fun e hg hp => ?_⟩
  · constructor
    · simp [cp, h1, h2, hg, hp]
    · simp [cp, h1, h2, hg, hp]
  · constructor
    · simp [cp, h1, h2, hg]
    · simp [cp, h1, h2, hg]
  · constructor
    · simp [cp, h1, h2, hg, hp]
    · simp [cp, h1, h2, hg, hp]

theorem C1_witness :
    (cp env0 [("src"), ("dst")]).1 = .ok ()
  ∧ (cp env0 [("src"), ("dst")]).2.getLast?
      = some (Event.rmtree (tmp_d env0 ("src"))) :=
  (C1_cleanup_on_success_only env0 ("src") ("dst") rfl rfl).1 rfl rfl

/-- C1 counterexample: with the recursive download raising an `IOError`,
`cp` re-raises that error but the trace contains no `rmtree` of the
staging directory it created — the staging directory is not removed on
this exit path, contradicting the claimed cleanup on every exit path. -/
theorem C1_counterexample :
    (cp envFail [("src"), ("dst")]).1
      = .error (.ioError ("network failure"))
  ∧ Event.osMkdir ("/tmp/src") ∈ (cp envFail [("src"), ("dst")]).2
  ∧ Event.rmtree ("/tmp/src") ∉ (cp envFail [("src"), ("dst")]).2 := by
  refine ⟨rfl, ?_, ?_⟩ <;> decide

/-- C2: `rmdir`'s deletion order — all files are removed during the walk
and the trace then removes the recorded directories in exact reverse of
the recorded (pre-order) sequence with the root last; consequently every
directory recorded inside a node's subtree is removed before the node
itself; on the tree `root/\x7ba.txt, sub/\x7bb.txt\x7d\x7d` the order is
`a.txt`, `sub/b.txt`, `sub`, `root`. -/
theorem C2_rmdir_removal_order (base p : String) (cs sub : List FSTree)
    (h : NodeIn base cs p sub) :
    rmdirRun base cs
      = (walkEvents base cs).1
        ++ ((walkEvents base cs).2.reverse.map Event.connRmdir)
        ++ [Event.connRmdir base]
  ∧ (∀ e ∈ (walkEvents base cs).1, ∃ q, e = Event.connRemove q)
  ∧ (∃ m1 m2, (walkEvents base cs).2.reverse
      = m1 ++ ((walkEvents p sub).2.reverse ++ (p :: m2)))
  ∧ rmdir env0 [("root")]
      = (.ok (), [Event.connIsdir ("root"),
          Event.connRemove ("root/a.txt"), Event.connRemove ("root/sub/b.txt"),
          Event.connRmdir ("root/sub"), Event.connRmdir ("root")]) := by
  refine ⟨by simp [rmdirRun], walk_files_removes base cs, ?_, ?_⟩
  · obtain ⟨l1, l2, hl⟩ := nodeIn_dirs_split h
    refine ⟨l2.reverse, l1.reverse, ?_⟩
    rw [hl]
    simp
  · simp [rmdir, env0, rmdirRun, walkEvents]

theorem C2_witness :
    rmdir env0 [("root")]
      = (.ok (), [Event.connIsdir ("root"),
          Event.connRemove ("root/a.txt"), Event.connRemove ("root/sub/b.txt"),
          Event.connRmdir ("root/sub"), Event.connRmdir ("root")]) :=
  (C2_rmdir_removal_order ("root") ("root/sub")
    [FSTree.file ("a.txt"), FSTree.dir ("sub") [FSTree.file ("b.txt")]]
    [FSTree.file ("b.txt")]
    (NodeIn.inRest ("root") (FSTree.file ("a.txt"))
      [FSTree.dir ("sub") [FSTree.file ("b.txt")]] ("root/sub")
      [FSTree.file ("b.txt")]
      (NodeIn.here ("root") ("sub") [FSTree.file ("b.txt")] []))).2.2.2

theorem withLog_filter (name : String)
    (body : Env → List String → Except Err Unit × List Event)
    (env : Env) (args : List String) (hb : histFree (body env args).2) :
    (withLog name body env args).2.filter Event.isHist
      = [Event.histWrite (logLine name args)] := by
  simp [withLog, List.filter_cons, Event.isHist, filter_isHist_eq_nil hb]

/-- C4 (amended): every dispatched command other than `cp` and the pure
history query — `ls`, `chmod`, `rmdir`, `rm`, `mkdir`, `get`, `put` —
appends exactly one History Log record, the verb followed by the
space-joined argument list, on every invocation (successful or failing);
`cp`, lacking the decorator, appends nothing. -/
theorem C4_history_logging (env : Env) (v : Verb) (args : List String) :
    (v ≠ Verb.cp ∧ v ≠ Verb.history →
      (execute env v args).2.filter Event.isHist
        = [Event.histWrite (logLine v.name args)])
  ∧ (execute env Verb.cp args).2.filter Event.isHist = [] := by
  constructor
  · rintro ⟨hcp, hh⟩
    cases v with
    | cp => exact absurd rfl hcp
    | history => exact absurd rfl hh
    | ls => exact withLog_filter _ _ env args (ls_histFree env args)
    | chmod => exact withLog_filter _ _ env args (chmod_histFree env args)
    | rmdir => exact withLog_filter _ _ env args (rmdir_histFree env args)
    | rm => exact withLog_filter _ _ env args (rm_histFree env args)
    | mkdir => exact withLog_filter _ _ env args (mkdir_histFree env args)
    | get => exact withLog_filter _ _ env args (get_histFree env args)
    | put => exact withLog_filter _ _ env args (put_histFree env args)
  · exact filter_isHist_eq_nil (cp_histFree env args)

theorem C4_witness :
    (execute env0 Verb.ls [("Downloads")]).2.filter Event.isHist
      = [Event.histWrite ("ls Downloads")] :=
  (C4_history_logging env0 Verb.ls [("Downloads")]).1
    (by exact ⟨by decide, by decide⟩)

/-- C4 counterexample: a `cp` invocation appends no record at all to the
History Log — its trace holds no history write, let alone the record
`cp a b` the claim requires. -/
theorem C4_counterexample :
    (execute env0 Verb.cp [("a"), ("b")]).2.filter Event.isHist = []
  ∧ Event.histWrite (logLine ("cp") [("a"), ("b")])
      ∉ (execute env0 Verb.cp [("a"), ("b")]).2 := by
  exact ⟨rfl, by decide⟩

/-- C6 (amended): each verb except `put` validates its argument count
before its body runs and before any remote call — the wrong-arity
invocation raises a `TypeError` naming the expected arity, its whole
effect being at most the history-log line — with arity sets ls: 0 or 1,
chmod: 2, rmdir: 1, rm: 1, mkdir: 1, get: 1 or 2, cp: 2, history: 0.
`put` performs no arity validation: an empty argument list is a silent
no-op that writes only its history line. -/
theorem C6_arity_validation (env : Env) (args : List String) :
    (2 ≤ args.length →
      execute env Verb.ls args
        = (.error (.typeError (("ls() takes exactly zero or one arguments (")
            ++ toString args.length ++ (" given)"))),
          [Event.histWrite (logLine ("ls") args)]))
  ∧ (args.length ≠ 2 →
      execute env Verb.chmod args
        = (.error (.typeError (("chmod() takes exactly two arguments (")
            ++ toString args.length ++ (" given)"))),
          [Event.histWrite (logLine ("chmod") args)]))
  ∧ (args.length ≠ 1 →
      execute env Verb.rmdir args
        = (.error (.typeError (("rmdir() takes exactly one argument (")
            ++ toString args.length ++ (" given)"))),
          [Event.histWrite (logLine ("rmdir") args)]))
  ∧ (args.length ≠ 1 →
      execute env Verb.rm args
        = (.error (.typeError ("Usage: rm [filename | path/to/filename]")),
          [Event.histWrite (logLine ("rm") args)]))
  ∧ (args.length ≠ 1 →
      execute env Verb.mkdir args
        = (.error (.typeError ("Usage: mkdir [dirname | path/to/dirname]")),
          [Event.histWrite (logLine ("mkdir") args)]))
  ∧ (args.length = 0 ∨ 3 ≤ args.length →
      execute env Verb.get args
        = (.error (.typeError (("get() takes 1 or 2 arguments (")
            ++ toString args.length ++ (" given)"))),
          [Event.histWrite (logLine ("get") args)]))
  ∧ (args.length ≠ 2 →
      execute env Verb.cp args
        = (.error (.typeError (("cp() takes exactly two arguments (")
            ++ toString args.length ++ (" given)"))), []))
  ∧ (args.length ≠ 0 →
      execute env Verb.history args
        = (.error (.typeError (("history takes exactly zero arguments (")
            ++ toString args.length ++ (" given)"))), []))
  ∧ execute env Verb.put [] = (.ok (), [Event.histWrite ("put")]) := by
  refine ⟨?_, ?_, ?_, ?_, ?_, ?_, ?_, ?_, rfl⟩
  · intro h
    rcases args with _ | ⟨a, _ | ⟨b, r⟩⟩
    · simp at h
    · simp at h
    · simp [execute, withLog, ls]
  · intro h
    rcases args with _ | ⟨a, _ | ⟨b, _ | ⟨c, r⟩⟩⟩ <;>
      simp_all [execute, withLog, chmod]
  · intro h
    rcases args with _ | ⟨a, _ | ⟨b, r⟩⟩ <;>
      simp_all [execute, withLog, rmdir]
  · intro h
    rcases args with _ | ⟨a, _ | ⟨b, r⟩⟩ <;>
      simp_all [execute, withLog, rm]
  · intro h
    rcases args with _ | ⟨a, _ | ⟨b, r⟩⟩ <;>
      simp_all [execute, withLog, mkdir]
  · intro h
    rcases args with _ | ⟨a, _ | ⟨b, _ | ⟨c, r⟩⟩⟩
    · simp [execute, withLog, get]
    · simp at h
    · simp at h
    · simp [execute, withLog, get]
  · intro h
    rcases args with _ | ⟨a, _ | ⟨b, _ | ⟨c, r⟩⟩⟩ <;>
      simp_all [execute, cp]
  · intro h
    rcases args with _ | ⟨a, r⟩ <;> simp_all [execute, history]

theorem C6_witness :
    execute env0 Verb.rmdir [("a"), ("b")]
      = (.error (.typeError ("rmdir() takes exactly one argument (2 given)")),
        [Event.histWrite ("rmdir a b")]) :=
  (C6_arity_validation env0 [("a"), ("b")]).2.2.1 (by decide)

/-- C6 counterexample: `put` with zero arguments — outside its declared
arity set of at least one — raises no usage error at all: it returns
successfully having only written its history line. -/
theorem C6_counterexample :
    execute env0 Verb.put [] = (.ok (), [Event.histWrite ("put")]) := rfl

/-- C7 (amended): `get` keeps its two failure kinds apart — wrong arity is
a `TypeError`, a non-file remote path an `IOError`, and the two
constructors are distinct — but `rm` raises the very same
`TypeError("Usage: rm [filename | path/to/filename]")` both for a wrong
argument count and for a path that is not a file. -/
theorem C7_error_kinds (env : Env) (p : String)
    (hf : env.remoteIsFile p = false) :
    (get env []).1
      = .error (.typeError ("get() takes 1 or 2 arguments (0 given)"))
  ∧ (get env [p]).1
      = .error (.ioError (("The remote path '") ++ p ++ ("' is not a file")))
  ∧ (∀ m m2, Err.typeError m ≠ Err.ioError m2)
  ∧ (rm env [p]).1
      = .error (.typeError ("Usage: rm [filename | path/to/filename]"))
  ∧ (rm env []).1
      = .error (.typeError ("Usage: rm [filename | path/to/filename]")) := by
  refine ⟨rfl, ?_, ?_, ?_, rfl⟩
  · simp [get, hf]
  · intro m m2 hcontra
    exact Err.noConfusion hcontra
  · simp [rm, hf]

theorem C7_witness :
    (get env0 [("x")]).1
      = .error (.ioError ("The remote path 'x' is not a file")) :=
  (C7_error_kinds env0 ("x") rfl).2.1

/-- C7 counterexample: `rm`'s not-a-file failure is byte-for-byte the same
`TypeError` value as its wrong-argument-count usage failure — the two are
not distinct errors. -/
theorem C7_counterexample :
    (rm env0 [("x")]).1 = (rm env0 [("x"), ("y")]).1
  ∧ (rm env0 [("x")]).1
      = .error (.typeError ("Usage: rm [filename | path/to/filename]")) :=
  ⟨rfl, rfl⟩

end SFTPClient
